import Mathlib

/-!
# Verification of the Game_Emulator core subsystems

Shallow embedding of the image-fetch subsystem (`src/images.py`) and the
emulator-resolution / process-launch subsystem (`src/launcher.py`), with
theorems settling the specification claims about them.

Modelling conventions:
* Filesystem and network behaviour is abstracted into explicit environment
  records (`DlEnv`, `RawgResp`, `FS`, ...) supplied to each operation; the
  operations themselves are direct translations of the Python functions.
* Python exceptions are modelled with `Except`: an `Except.error` value is an
  exception propagating out of the translated code.  A Python
  `try/except requests.exceptions.RequestException` block is the combinator
  `catchReq`, which converts exactly the `reqExc` error kind into the
  `return False` of the handler and lets every other exception kind through.
* Observable actions (HTTP GETs, metadata-API queries, Qt signal emissions,
  thread spawns) are collected into a trace (`List Act`), in program order.
-/

namespace GameEmulator

/-! ## images.py — `ImageFetcher._local_path_for` -/

/-- Python's `str.isalnum`, modelled faithfully on the Latin-1 range
(U+0000–U+00FF): on ASCII it is exactly `[A-Za-z0-9]`; on U+0080–U+00FF it is
true exactly for the Latin-1 letters (ª µ º, À–Ö, Ø–ö, ø–ÿ) and the numeric
characters (² ³ ¹ ¼ ½ ¾).  Code points above U+00FF (where Python consults the
full Unicode tables) are outside the scope of the claims considered here and
are mapped to `false`. -/
def pyIsAlnum (c : Char) : Bool :=
  if c.toNat < 128 then c.isAlpha || c.isDigit
  else if c.toNat ≤ 0xFF then
    let n := c.toNat
    n == 0xAA || n == 0xB5 || n == 0xBA ||
    n == 0xB2 || n == 0xB3 || n == 0xB9 ||
    n == 0xBC || n == 0xBD || n == 0xBE ||
    (0xC0 ≤ n && n ≤ 0xFF && n != 0xD7 && n != 0xF7)
  else false

/-- One character of the sanitizer in `_local_path_for`:
`c if c.isalnum() or c in ("_", "-", ".") else "_"`. -/
def sanitizeChar (c : Char) : Char :=
  if pyIsAlnum c || c == '_' || c == '-' || c == '.' then c else '_'

/-- Python: `safe_key = "".join(c if c.isalnum() or c in ("_", "-", ".") else "_" for c in key)` -/
def safeKey (key : String) : String :=
  String.mk (key.data.map sanitizeChar)

/-- Model of `ImageFetcher._local_path_for`: `os.path.join(self.covers_dir, f"{safe_key}.png")`
(POSIX join). -/
def localPathFor (coversDir key : String) : String :=
  coversDir ++ "/" ++ safeKey key ++ ".png"

/-- The path function as the specification words it ("replacing every character
not in `[A-Za-z0-9_.-]` with `_`, then appending `.png`, rooted at
`covers_dir`"), for comparison with `localPathFor` above.  `Char.isAlpha` and
`Char.isDigit` are exactly the ASCII ranges `A-Za-z` and `0-9`. -/
def specLocalPathFor (coversDir key : String) : String :=
  coversDir ++ "/" ++
    String.mk (key.data.map (fun c =>
      if c.isAlpha || c.isDigit || c == '_' || c == '.' || c == '-' then c else '_')) ++
    ".png"

/-! ## images.py — exception and trace model -/

/-- Kinds of Python exception relevant to the fetch code paths:
`reqExc` is any `requests.exceptions.RequestException` (connection errors,
`HTTPError` from `raise_for_status`, `requests`' JSON decode errors, ...);
`osErr` is an `OSError` from file I/O (`open`, `write`, `os.replace`);
`attrErr` is an `AttributeError` from calling `.get` on a non-dict JSON value. -/
inductive Exc
  | reqExc
  | osErr
  | attrErr
deriving DecidableEq, Repr

/-- Observable actions of the fetch subsystem, in program order:
an HTTP GET of a concrete URL, a metadata-API (RAWG) query, an
`image_ready.emit(key, path)` signal emission, and the spawning of a worker
thread for a key. -/
inductive Act
  | httpGet (url : String)
  | apiQuery
  | emit (key path : String)
  | spawnWorker (key : String)
deriving DecidableEq, Repr

/-- Python pattern `try: body except requests.exceptions.RequestException: return False`:
exactly the `reqExc` exception kind is caught and turned into the ordinary
result `false`; any other exception kind propagates. -/
def catchReq (r : Except Exc Bool) : Except Exc Bool :=
  match r with
  | .error .reqExc => .ok false
  | r => r

/-- Environment for one `_try_download(url, local_path)` call: the outcome of
each of its primitive steps, `none` meaning the step succeeds and `some e`
meaning it raises exception `e`.
`get` covers `requests.get` + `raise_for_status` + reading the body chunks
(all of which raise `RequestException` subclasses on failure);
`write` covers `open(tmp_path, "wb")` and the chunk writes;
`rename` covers `os.replace(tmp_path, local_path)`. -/
structure DlEnv where
  get : Option Exc
  write : Option Exc
  rename : Option Exc
deriving DecidableEq, Repr

/-- The body of the `try` block of `_try_download`, before the `except` clause:
runs the three steps in order, propagating the first exception, and returns
`true` when all succeed. -/
def tryDownloadBody (e : DlEnv) : Except Exc Bool :=
  match e.get with
  | some ex => .error ex
  | none =>
    match e.write with
    | some ex => .error ex
    | none =>
      match e.rename with
      | some ex => .error ex
      | none => .ok true

/-- Model of `ImageFetcher._try_download(url, local_path)`: the guarded body plus the
`except requests.exceptions.RequestException` handler, together with the trace
of network actions it performs (always exactly the one `requests.get url`). -/
def tryDownloadT (url : String) (e : DlEnv) : List Act × Except Exc Bool :=
  ([Act.httpGet url], catchReq (tryDownloadBody e))

/-- Outcome of the RAWG metadata-API interaction in `_try_fetch_from_rawg`,
as seen by the code after `requests.get(rawg_url, ...)`:
* `excDuringGet e` — `requests.get`, `raise_for_status`, or `response.json()`
  raised `e`;
* `notADict` — `response.json()` returned a non-dict, so `.get("results")`
  raises `AttributeError`;
* `noResults` — `results` is missing, `None`, or an empty list (falsy), so the
  `if data and ...` guard fails;
* `firstNotDict` — `data` is a non-empty list but `data[0]` is not a dict, so
  `data[0].get("background_image")` raises `AttributeError`;
* `noImage` — the first result has no (or a falsy) `background_image`;
* `image imgUrl dl` — the first result carries `background_image = imgUrl`, and
  `dl` is the environment of the nested `_try_download(image_url, local_path)`. -/
inductive RawgResp
  | excDuringGet (e : Exc)
  | notADict
  | noResults
  | firstNotDict
  | noImage
  | image (imgUrl : String) (dl : DlEnv)
deriving DecidableEq, Repr

/-- Model of `ImageFetcher._try_fetch_from_rawg(name, local_path)`: queries the API and,
if a background image URL is present, downloads it via `_try_download`; the
whole body sits inside `try ... except requests.exceptions.RequestException:
... return False`.  Returns the trace of network actions and the result. -/
def tryFetchFromRawgT (r : RawgResp) : List Act × Except Exc Bool :=
  match r with
  | .excDuringGet e => ([Act.apiQuery], catchReq (.error e))
  | .notADict => ([Act.apiQuery], catchReq (.error .attrErr))
  | .noResults => ([Act.apiQuery], .ok false)
  | .firstNotDict => ([Act.apiQuery], catchReq (.error .attrErr))
  | .noImage => ([Act.apiQuery], .ok false)
  | .image imgUrl dl =>
    let (t, res) := tryDownloadT imgUrl dl
    (Act.apiQuery :: t, catchReq res)

/-- Python truthiness of an optional string (`if url and ...`):
`None` and `""` are falsy. -/
def pyTruthy (s : Option String) : Bool :=
  match s with
  | none => false
  | some s => s ≠ ""

/-- The second half of `ImageFetcher._worker`:
`if self.api_key and self._try_fetch_from_rawg(name, local_path): emit(key,
local_path); return` followed by the final `emit(key, "")`.  The API is
consulted only when `self.api_key` is truthy (non-empty after `.strip()`). -/
def workerRawgStep (key localPath apiKey : String) (rawg : RawgResp) :
    List Act × Option Exc :=
  if apiKey ≠ "" then
    match tryFetchFromRawgT rawg with
    | (t, .ok true) => (t ++ [Act.emit key localPath], none)
    | (t, .ok false) => (t ++ [Act.emit key ""], none)
    | (t, .error e) => (t, some e)
  else ([Act.emit key ""], none)

/-- Model of `ImageFetcher._worker(key, name, url, local_path)`: try the direct URL
first (`if url and self._try_download(url, local_path)`), then the RAWG step,
emitting `image_ready(key, local_path)` on success or `image_ready(key, "")`
when both avenues fail.  Result: the trace of actions performed, and `some e`
when exception `e` propagated out of the worker thread (in which case no
further action runs, in particular no signal is emitted). -/
def worker (key localPath : String) (url : Option String) (apiKey : String)
    (dl : DlEnv) (rawg : RawgResp) : List Act × Option Exc :=
  match url with
  | some u =>
    if u ≠ "" then
      match tryDownloadT u dl with
      | (t, .ok true) => (t ++ [Act.emit key localPath], none)
      | (t, .ok false) =>
        let (t2, e) := workerRawgStep key localPath apiKey rawg
        (t ++ t2, e)
      | (t, .error e) => (t, some e)
    else workerRawgStep key localPath apiKey rawg
  | none => workerRawgStep key localPath apiKey rawg

/-- Model of `ImageFetcher.fetch(game_key, game_name, image_url)`, the synchronous part:
if the file at `_local_path_for(game_key)` already exists
(`os.path.exists(local_path)`, abstracted as `pathExists`), emit
`image_ready(game_key, local_path)` and return; otherwise start a worker
thread. -/
def fetch (coversDir key : String) (pathExists : String → Bool) : List Act :=
  let localPath := localPathFor coversDir key
  if pathExists localPath then [Act.emit key localPath]
  else [Act.spawnWorker key]

/-- A whole fetch request including the worker run it schedules (when the
cover is not cached): the full trace of actions and the exception, if any,
that escaped the worker thread. -/
def fetchRun (coversDir key : String) (pathExists : String → Bool)
    (url : Option String) (apiKey : String) (dl : DlEnv) (rawg : RawgResp) :
    List Act × Option Exc :=
  let localPath := localPathFor coversDir key
  if pathExists localPath then ([Act.emit key localPath], none)
  else
    let (t, e) := worker key localPath url apiKey dl rawg
    (Act.spawnWorker key :: t, e)

/-- The `image_ready` emissions of a trace, as `(key, path)` pairs in order. -/
def emitsOf (t : List Act) : List (String × String) :=
  t.filterMap (fun a =>
    match a with
    | .emit k p => some (k, p)
    | _ => none)

/-- Whether a trace contains a metadata-API query. -/
def queriesApi (t : List Act) : Bool :=
  t.any (fun a => a == Act.apiQuery)

/-- Whether a trace contains any network call (direct download or API query). -/
def hasNetworkCall (t : List Act) : Bool :=
  t.any (fun a =>
    match a with
    | .httpGet _ => true
    | .apiQuery => true
    | _ => false)

/-- Whether a trace spawns a worker thread. -/
def spawnsWorker (t : List Act) : Bool :=
  t.any (fun a =>
    match a with
    | .spawnWorker _ => true
    | _ => false)

/-- A primitive step either succeeded or raised only a
`requests.exceptions.RequestException`. -/
def stepOkOrReq (o : Option Exc) : Bool :=
  o == none || o == some Exc.reqExc

/-- Every failure in a download environment is a `RequestException` (the only
kind the `except` clauses catch). -/
def dlOnlyReq (e : DlEnv) : Bool :=
  stepOkOrReq e.get && stepOkOrReq e.write && stepOkOrReq e.rename

/-- Every failure in a RAWG interaction is a `RequestException`: rules out a
non-dict JSON value, a non-dict first result, and non-request errors in the
nested image download. -/
def rawgOnlyReq (r : RawgResp) : Bool :=
  match r with
  | .excDuringGet e => e == Exc.reqExc
  | .notADict => false
  | .noResults => true
  | .firstNotDict => false
  | .noImage => true
  | .image _ dl => dlOnlyReq dl

/-! ## launcher.py — `find_emulator` -/

/-- A consistent snapshot of the filesystem as `find_emulator` observes it:
`pathExists` is `os.path.exists`, `isFile` is `os.path.isfile`, and
`emuDirListing` is the listing of the fixed `"emulators"` directory —
`some files` when the directory exists (`os.path.isdir` true, `os.listdir`
returns `files` in listing order), `none` when it is absent
(`os.path.isdir` false, `os.listdir` raises `FileNotFoundError`). -/
structure FS where
  pathExists : String → Bool
  isFile : String → Bool
  emuDirListing : Option (List String)

/-- Boolean contiguous-substring test on character lists: `needle` occurs as a
contiguous run inside `hay`. -/
def infixOfChars (needle hay : List Char) : Bool :=
  needle.isPrefixOf hay ||
    match hay with
    | [] => false
    | _ :: t => infixOfChars needle t

/-- Boolean suffix test on character lists. -/
def endsWithChars (suffix l : List Char) : Bool :=
  suffix.reverse.isPrefixOf l.reverse

/-- Python's `str.lower`, as a character list (`Char.toLower` matches
`str.lower` on ASCII, which is the range the consoles and filenames here
use). -/
def pyLower (s : String) : List Char :=
  s.data.map Char.toLower

/-- Python's case-insensitive substring test `console.lower() in file.lower()`. -/
def pySubstr (needle hay : String) : Bool :=
  infixOfChars (pyLower needle) (pyLower hay)

/-- Model of `find_emulator(cfg, console)` from `src/launcher.py`.
`emulators` models `cfg.get("emulators", {}).get(console)`.
Step 1: a configured path, accepted only if truthy and existing.
Step 2: if `emulators/` exists, the first listed `file` with
`console.lower() in file.lower()` whose joined path is a regular file.
Step 3 (fallback): of all listed entries, those whose lower-cased joined path
ends in `".exe"`; if exactly one, return it; `os.listdir` raising
`FileNotFoundError` here is caught and falls through to `None`. -/
def find_emulator (emulators : String → Option String) (fs : FS)
    (console : String) : Option String :=
  let em := emulators console
  if pyTruthy em && fs.pathExists (em.getD "") then em
  else
    let scan : Option String :=
      match fs.emuDirListing with
      | none => none
      | some files =>
        (files.find? (fun f =>
          pySubstr console f && fs.isFile ("emulators/" ++ f))).map
          (fun f => "emulators/" ++ f)
    match scan with
    | some c => some c
    | none =>
      match fs.emuDirListing with
      | none => none
      | some files =>
        match (files.map (fun f => "emulators/" ++ f)).filter
            (fun f => endsWithChars ".exe".data (pyLower f)) with
        | [e] => some e
        | _ => none

/-! ## launcher.py — `launch_and_watch` -/

/-- The kind of failure surfaced by `launch_and_watch` through its
`QMessageBox.critical` dialog (the function itself returns `None` in each
case): missing emulator executable, missing ROM file, or an `OSError` from
`subprocess.Popen` carrying the OS error text. -/
inductive ErrKind
  | missingExecutable
  | missingRom
  | spawnFailed (err : String)
deriving DecidableEq, Repr

/-- The title of the error dialog shown for each failure kind, from the
`QMessageBox.critical` calls in the source. -/
def dialogTitle (k : ErrKind) : String :=
  match k with
  | .missingExecutable => "Emulator Missing"
  | .missingRom => "ROM Missing"
  | .spawnFailed _ => "Launch Failed"

/-- A spawned child process, abstracted to the exit code that `p.wait()`
eventually returns. -/
structure Proc where
  exitCode : Int
deriving DecidableEq, Repr

/-- What one `launch_and_watch` call did: the failure dialog shown (if any),
the `subprocess.Popen` handle returned (if any), and whether
`subprocess.Popen` was invoked at all. -/
structure LaunchOutcome where
  error : Option ErrKind
  proc : Option Proc
  popenCalled : Bool
deriving DecidableEq, Repr

/-- Model of `launch_and_watch(emulator, rom_path, on_exit, parent)` up to the point
where it returns: validate that both paths exist, then spawn.  `spawn` is the
environment's outcome for `subprocess.Popen([emulator, rom_path])` —
`.error e` when it raises `OSError e`, `.ok p` when it yields process `p`. -/
def launch_and_watch (pathExists : String → Bool) (spawn : Except String Proc)
    (emulator romPath : String) : LaunchOutcome :=
  if !pathExists emulator then
    { error := some .missingExecutable, proc := none, popenCalled := false }
  else if !pathExists romPath then
    { error := some .missingRom, proc := none, popenCalled := false }
  else
    match spawn with
    | .error e =>
      { error := some (.spawnFailed e), proc := none, popenCalled := true }
    | .ok p => { error := none, proc := some p, popenCalled := true }

/-- The body of the `watcher(p)` thread started after a successful spawn:
`code = p.wait(); if callable(on_exit): on_exit(code)`.  Result: the list of
exit-callback invocations (each with its argument), in order.  `hasCallback`
is `callable(on_exit)`. -/
def watcher (hasCallback : Bool) (p : Proc) : List Int :=
  if hasCallback then [p.exitCode] else []

/-! ## Helper lemmas -/

/-- On ASCII characters, Python's `isalnum` is exactly `[A-Za-z0-9]`. -/
theorem pyIsAlnum_ascii (c : Char) (h : c.toNat < 128) :
    pyIsAlnum c = (c.isAlpha || c.isDigit) := by
  unfold pyIsAlnum
  rw [if_pos h]

/-- On ASCII characters, the code's sanitizer keeps exactly the characters of
the class `[A-Za-z0-9_.-]`. -/
theorem sanitizeChar_ascii (c : Char) (h : c.toNat < 128) :
    sanitizeChar c =
      if c.isAlpha || c.isDigit || c == '_' || c == '.' || c == '-' then c else '_' := by
  unfold sanitizeChar
  rw [pyIsAlnum_ascii c h]
  cases hA : c.isAlpha <;> cases hD : c.isDigit <;> cases h1 : c == '_' <;>
    cases h2 : c == '-' <;> cases h3 : c == '.' <;> simp

example : localPathFor "resources/covers" "NES::Mario" = "resources/covers/NES__Mario.png" := by decide
example : localPathFor "covers" "é" = "covers/é.png" := by decide
example : specLocalPathFor "covers" "é" = "covers/_.png" := by decide
example :
    worker "k" "p" (some "http://x") "" ⟨none, some .osErr, none⟩ .noResults
      = ([Act.httpGet "http://x"], some .osErr) := by decide
example :
    worker "k" "p" (some "http://x") "" ⟨none, none, none⟩ .noResults
      = ([Act.httpGet "http://x", Act.emit "k" "p"], none) := by decide
example :
    worker "k" "p" none "sekret" ⟨none, none, none⟩ (.image "http://img" ⟨none, none, none⟩)
      = ([Act.apiQuery, Act.httpGet "http://img", Act.emit "k" "p"], none) := by decide

example :
    find_emulator (fun c => if c = "NES" then some "emu/nestopia" else none)
      ⟨fun p => p = "emu/nestopia", fun _ => false, some ["zsnes.exe"]⟩ "NES"
      = some "emu/nestopia" := by decide
example :
    find_emulator (fun _ => none)
      ⟨fun _ => false, fun p => p = "emulators/nestopia.exe", some ["readme.txt", "nestopia.exe"]⟩ "NES"
      = some "emulators/nestopia.exe" := by decide
example :
    find_emulator (fun _ => none)
      ⟨fun _ => false, fun _ => false, some ["readme.txt", "ZSNES.EXE"]⟩ "NES"
      = some "emulators/ZSNES.EXE" := by decide
example :
    find_emulator (fun _ => none) ⟨fun _ => false, fun _ => false, none⟩ "NES"
      = none := by decide
example :
    launch_and_watch (fun _ => false) (.ok ⟨0⟩) "emu" "rom"
      = { error := some .missingExecutable, proc := none, popenCalled := false } := by decide
example : watcher true ⟨3⟩ = [3] := by decide

/-- The empty character list occurs inside every list. -/
theorem infixOfChars_nil (l : List Char) : infixOfChars [] l = true := by
  cases l <;> simp [infixOfChars, List.isPrefixOf]

/-- The empty string is a (case-insensitive) substring of every string, as in
Python, where `"" in s` is `True`. -/
theorem pySubstr_empty (hay : String) : pySubstr "" hay = true := by
  simp [pySubstr, pyLower, infixOfChars_nil]

/-! ## Claim C6 (confirmed) -/

/-- C6: the resolver prefers a configured path that exists on the filesystem
over any directory scan (first conjunct: the configured path is returned
whatever the `emulators/` directory holds); a configured non-existent path is
skipped (second conjunct: the result then equals that of a run with no
configured path at all); and when the `emulators/` directory is absent and no
configured existing path applies, the resolver returns `none` — absence, not
an error (third conjunct). -/
theorem find_emulator_priority :
    (∀ (em : String → Option String) (fs : FS) (console p : String),
      em console = some p → p ≠ "" → fs.pathExists p = true →
      find_emulator em fs console = some p)
    ∧ (∀ (em : String → Option String) (fs : FS) (console p : String),
      em console = some p → fs.pathExists p = false →
      find_emulator em fs console = find_emulator (fun _ => none) fs console)
    ∧ (∀ (em : String → Option String) (fs : FS) (console : String),
      fs.emuDirListing = none →
      (∀ p, em console = some p → p = "" ∨ fs.pathExists p = false) →
      find_emulator em fs console = none) := by
  refine ⟨?_, ?_, ?_⟩
  · intro em fs console p h1 h2 h3
    simp [find_emulator, pyTruthy, h1, h2, h3]
  · intro em fs console p h1 h2
    simp [find_emulator, pyTruthy, h1, h2]
  · intro em fs console hl hcfg
    cases hc : em console with
    | none => simp [find_emulator, pyTruthy, hl, hc]
    | some p =>
      rcases hcfg p hc with h | h
      · subst h
        simp [find_emulator, pyTruthy, hl, hc]
      · simp [find_emulator, pyTruthy, hl, hc, h]

/-- C6 witness: a configured existing path wins over a populated directory; a
configured missing path falls back to the scan; with no directory and no
configured path the result is `none`. -/
theorem find_emulator_priority_witness :
    find_emulator (fun _ => some "emu/nestopia")
      ⟨fun p => p == "emu/nestopia", fun _ => false, some ["a.exe", "b.exe"]⟩
      "NES" = some "emu/nestopia" ∧
    find_emulator (fun _ => some "emu/gone")
      ⟨fun _ => false, fun p => p == "emulators/nestopia.exe",
        some ["nestopia.exe"]⟩ "NES" =
      find_emulator (fun _ => none)
        ⟨fun _ => false, fun p => p == "emulators/nestopia.exe",
          some ["nestopia.exe"]⟩ "NES" ∧
    find_emulator (fun _ => none) ⟨fun _ => false, fun _ => false, none⟩
      "NES" = none :=
  ⟨find_emulator_priority.1 (fun _ => some "emu/nestopia")
      ⟨fun p => p == "emu/nestopia", fun _ => false, some ["a.exe", "b.exe"]⟩
      "NES" "emu/nestopia" rfl (by decide) (by decide),
    find_emulator_priority.2.1 (fun _ => some "emu/gone")
      ⟨fun _ => false, fun p => p == "emulators/nestopia.exe",
        some ["nestopia.exe"]⟩ "NES" "emu/gone" rfl rfl,
    find_emulator_priority.2.2 (fun _ => none)
      ⟨fun _ => false, fun _ => false, none⟩ "NES" rfl
      (fun p hp => by cases hp)⟩

/-! ## Claim C7 (confirmed) -/

/-- C7: when the configured path and the console-substring scan both fail, the
fallback looks only at the extension: if exactly one listed entry (joined under
`emulators/`) ends in `.exe` case-insensitively, it is returned no matter what
the console is (the fallback predicate never mentions `console`); with any
other number of `.exe` entries the resolver returns `none`. -/
theorem find_emulator_single_exe_fallback (em : String → Option String)
    (fs : FS) (console : String) (files : List String)
    (hcfg : ∀ p, em console = some p → p = "" ∨ fs.pathExists p = false)
    (hlist : fs.emuDirListing = some files)
    (hscan : files.find?
      (fun f => pySubstr console f && fs.isFile ("emulators/" ++ f)) = none) :
    (∀ e, (files.map (fun f => "emulators/" ++ f)).filter
        (fun f => endsWithChars ".exe".data (pyLower f)) = [e] →
      find_emulator em fs console = some e)
    ∧ (((files.map (fun f => "emulators/" ++ f)).filter
        (fun f => endsWithChars ".exe".data (pyLower f))).length ≠ 1 →
      find_emulator em fs console = none) := by
  have hstep1 :
      (pyTruthy (em console) && fs.pathExists ((em console).getD "")) = false := by
    cases hc : em console with
    | none => simp [pyTruthy]
    | some p =>
      rcases hcfg p hc with h | h
      · subst h
        simp [pyTruthy]
      · simp [pyTruthy, h]
  constructor
  · intro e he
    simp [find_emulator, hstep1, hlist, hscan, he]
  · intro hlen
    cases hfil : (files.map (fun f => "emulators/" ++ f)).filter
        (fun f => endsWithChars ".exe".data (pyLower f)) with
    | nil => simp [find_emulator, hstep1, hlist, hscan, hfil]
    | cons a t =>
      cases t with
      | nil => exact absurd (by simp [hfil]) hlen
      | cons b t2 => simp [find_emulator, hstep1, hlist, hscan, hfil]

/-- C7 witness: with no configured path and a console matching nothing in the
listing, the single `.exe` entry (`ZSNES.EXE`, upper-case) is accepted for
console `"GBA"`; with two `.exe` entries nothing is returned. -/
theorem find_emulator_single_exe_fallback_witness :
    find_emulator (fun _ => none)
      ⟨fun _ => false, fun _ => false, some ["readme.txt", "ZSNES.EXE"]⟩
      "GBA" = some "emulators/ZSNES.EXE" ∧
    find_emulator (fun _ => none)
      ⟨fun _ => false, fun _ => false, some ["a.exe", "b.exe"]⟩
      "GBA" = none :=
  ⟨(find_emulator_single_exe_fallback (fun _ => none)
      ⟨fun _ => false, fun _ => false, some ["readme.txt", "ZSNES.EXE"]⟩
      "GBA" ["readme.txt", "ZSNES.EXE"] (fun p hp => by cases hp) rfl
      (by decide)).1 "emulators/ZSNES.EXE" (by decide),
    (find_emulator_single_exe_fallback (fun _ => none)
      ⟨fun _ => false, fun _ => false, some ["a.exe", "b.exe"]⟩
      "GBA" ["a.exe", "b.exe"] (fun p hp => by cases hp) rfl
      (by decide)).2 (by decide)⟩

/-! ## Claim C10 (confirmed) -/

/-- C10: the empty console string matches every filename in the scan (the
empty string is a case-insensitive substring of every name), so — when no
configured path applies — `find_emulator` with console `""` returns the first
entry of the `emulators/` listing that is a regular file. -/
theorem find_emulator_empty_console (em : String → Option String) (fs : FS)
    (files : List String) (f : String)
    (hcfg : ∀ p, em "" = some p → p = "" ∨ fs.pathExists p = false)
    (hlist : fs.emuDirListing = some files)
    (hfind : files.find? (fun g => fs.isFile ("emulators/" ++ g)) = some f) :
    (∀ name, pySubstr "" name = true) ∧
    find_emulator em fs "" = some ("emulators/" ++ f) := by
  refine ⟨pySubstr_empty, ?_⟩
  have hstep1 :
      (pyTruthy (em "") && fs.pathExists ((em "").getD "")) = false := by
    cases hc : em "" with
    | none => simp [pyTruthy]
    | some p =>
      rcases hcfg p hc with h | h
      · subst h
        simp [pyTruthy]
      · simp [pyTruthy, h]
  have hpred :
      (fun g => pySubstr "" g && fs.isFile ("emulators/" ++ g)) =
        (fun g => fs.isFile ("emulators/" ++ g)) := by
    funext g
    rw [pySubstr_empty, Bool.true_and]
  simp [find_emulator, hstep1, hlist, hpred, hfind]

/-- C10 witness: with console `""`, the first regular file in listing order is
returned even though nothing else relates it to any console. -/
theorem find_emulator_empty_console_witness :
    find_emulator (fun _ => none)
      ⟨fun _ => false, fun p => p == "emulators/nestopia", some ["sub", "nestopia", "zsnes.exe"]⟩
      "" = some "emulators/nestopia" :=
  (find_emulator_empty_console (fun _ => none)
    ⟨fun _ => false, fun p => p == "emulators/nestopia", some ["sub", "nestopia", "zsnes.exe"]⟩
    ["sub", "nestopia", "zsnes.exe"] "nestopia" (fun p hp => by cases hp) rfl
    (by decide)).2

/-! ## Claim C5 (corrected) -/

/-- C5, counterexample: the claim says every character outside
`[A-Za-z0-9_.-]` is replaced by `_`, but the code keys the replacement on
Python's Unicode-aware `str.isalnum`, which also keeps non-ASCII alphanumeric
characters: for the key `"é"` the code produces `"covers/é.png"`, while the
claimed rule would produce `"covers/_.png"`. -/
theorem localPathFor_unicode_counterexample :
    localPathFor "covers" "é" = "covers/é.png" ∧
    specLocalPathFor "covers" "é" = "covers/_.png" ∧
    localPathFor "covers" "é" ≠ specLocalPathFor "covers" "é" := by
  decide

/-- C5, amended: for every key made of ASCII characters, the cache path
function maps the key to a file path by replacing every character not in
`[A-Za-z0-9_.-]` with `_`, then appending `.png`, rooted at `covers_dir`
(non-ASCII alphanumeric characters, accepted by Python's `isalnum`, are kept
rather than replaced). -/
theorem localPathFor_C5_ascii (coversDir key : String)
    (h : ∀ c ∈ key.data, c.toNat < 128) :
    localPathFor coversDir key = specLocalPathFor coversDir key := by
  have hmap :
      key.data.map sanitizeChar =
        key.data.map (fun c =>
          if c.isAlpha || c.isDigit || c == '_' || c == '.' || c == '-' then c
          else '_') :=
    List.map_congr_left (fun c hc => sanitizeChar_ascii c (h c hc))
  simp only [localPathFor, specLocalPathFor, safeKey, hmap]

/-- C5 witness: the amended theorem applied to the ASCII key `"NES::Mario"`. -/
theorem localPathFor_C5_ascii_witness :
    localPathFor "resources/covers" "NES::Mario" =
      specLocalPathFor "resources/covers" "NES::Mario" :=
  localPathFor_C5_ascii "resources/covers" "NES::Mario" (by decide)

/-! ## Claim C3 (confirmed) -/

/-- C3: when the cover file for `key` already exists on disk, `fetch` emits
`image_ready(key, cached_path)` synchronously (it is the whole trace of the
call, produced before `fetch` returns), performs no network call, and spawns
no worker thread. -/
theorem fetch_cached_synchronous (coversDir key : String)
    (pathExists : String → Bool)
    (h : pathExists (localPathFor coversDir key) = true) :
    fetch coversDir key pathExists =
      [Act.emit key (localPathFor coversDir key)] ∧
    hasNetworkCall (fetch coversDir key pathExists) = false ∧
    spawnsWorker (fetch coversDir key pathExists) = false := by
  simp [fetch, h, hasNetworkCall, spawnsWorker]

/-- C3 witness: a cached key delivers its result synchronously. -/
theorem fetch_cached_synchronous_witness :
    fetch "resources/covers" "NES::Mario"
        (fun p => p == "resources/covers/NES__Mario.png") =
      [Act.emit "NES::Mario"
        (localPathFor "resources/covers" "NES::Mario")] ∧
    hasNetworkCall (fetch "resources/covers" "NES::Mario"
        (fun p => p == "resources/covers/NES__Mario.png")) = false ∧
    spawnsWorker (fetch "resources/covers" "NES::Mario"
        (fun p => p == "resources/covers/NES__Mario.png")) = false :=
  fetch_cached_synchronous "resources/covers" "NES::Mario"
    (fun p => p == "resources/covers/NES__Mario.png") (by decide)

/-! ## Claim C8 (confirmed) -/

/-- C8: `launch_and_watch` checks its preconditions before spawning — a
non-existent emulator path yields the `MissingExecutable` failure and a
non-existent ROM path yields the `MissingRom` failure, in both cases without
`subprocess.Popen` ever being called; and an OS-level spawn failure yields the
distinct `SpawnFailed` kind carrying the underlying OS error text. -/
theorem launch_preconditions_before_spawn :
    (∀ (pe : String → Bool) (sp : Except String Proc) (emu rom : String),
      pe emu = false →
      launch_and_watch pe sp emu rom =
        { error := some ErrKind.missingExecutable, proc := none,
          popenCalled := false })
    ∧ (∀ (pe : String → Bool) (sp : Except String Proc) (emu rom : String),
      pe emu = true → pe rom = false →
      launch_and_watch pe sp emu rom =
        { error := some ErrKind.missingRom, proc := none,
          popenCalled := false })
    ∧ (∀ (pe : String → Bool) (emu rom e : String),
      pe emu = true → pe rom = true →
      launch_and_watch pe (Except.error e) emu rom =
        { error := some (ErrKind.spawnFailed e), proc := none,
          popenCalled := true } ∧
      ErrKind.spawnFailed e ≠ ErrKind.missingExecutable ∧
      ErrKind.spawnFailed e ≠ ErrKind.missingRom) := by
  refine ⟨?_, ?_, ?_⟩ <;> intros <;> simp_all [launch_and_watch]

/-- C8 witness: the three failure shapes at concrete inputs. -/
theorem launch_preconditions_before_spawn_witness :
    launch_and_watch (fun _ => false) (Except.ok ⟨0⟩) "emu/x" "roms/y" =
      { error := some ErrKind.missingExecutable, proc := none,
        popenCalled := false } ∧
    launch_and_watch (fun p => p == "emu/x") (Except.ok ⟨0⟩) "emu/x" "roms/y" =
      { error := some ErrKind.missingRom, proc := none,
        popenCalled := false } ∧
    launch_and_watch (fun _ => true) (Except.error "EACCES") "emu/x" "roms/y" =
      { error := some (ErrKind.spawnFailed "EACCES"), proc := none,
        popenCalled := true } :=
  ⟨launch_preconditions_before_spawn.1 (fun _ => false) (Except.ok ⟨0⟩)
      "emu/x" "roms/y" rfl,
    launch_preconditions_before_spawn.2.1 (fun p => p == "emu/x")
      (Except.ok ⟨0⟩) "emu/x" "roms/y" (by decide) (by decide),
    (launch_preconditions_before_spawn.2.2 (fun _ => true) "emu/x" "roms/y"
      "EACCES" rfl rfl).1⟩

/-! ## Claim C9 (confirmed) -/

/-- C9: on a successful launch (both paths exist, spawn succeeds),
`launch_and_watch` returns the process handle directly — the waiting happens
only in the separately-running `watcher` thread, so the caller is not blocked
until process exit — and the watcher invokes the exit callback exactly once,
with exactly the exit code returned by `p.wait()` on the spawned process. -/
theorem launch_success_watcher_exactly_once (pe : String → Bool) (p : Proc)
    (emu rom : String) (h1 : pe emu = true) (h2 : pe rom = true) :
    launch_and_watch pe (Except.ok p) emu rom =
      { error := none, proc := some p, popenCalled := true } ∧
    watcher true p = [p.exitCode] := by
  simp [launch_and_watch, watcher, h1, h2]

/-- C9 witness: a concrete successful launch whose process exits with code 3. -/
theorem launch_success_watcher_exactly_once_witness :
    launch_and_watch (fun _ => true) (Except.ok ⟨3⟩) "emu/x" "roms/y" =
      { error := none, proc := some ⟨3⟩, popenCalled := true } ∧
    watcher true ⟨3⟩ = [(3 : Int)] :=
  launch_success_watcher_exactly_once (fun _ => true) ⟨3⟩ "emu/x" "roms/y"
    rfl rfl

/-! ## Worker helper lemmas -/

/-- Lemma: `emitsOf` distributes over trace concatenation. -/
theorem emitsOf_append (l1 l2 : List Act) :
    emitsOf (l1 ++ l2) = emitsOf l1 ++ emitsOf l2 :=
  List.filterMap_append l1 l2 _

/-- A direct-download attempt emits no signal (its trace is the one HTTP GET). -/
theorem emitsOf_download_trace (u : String) (dl : DlEnv) :
    emitsOf (tryDownloadT u dl).1 = [] := by
  simp [tryDownloadT, emitsOf]

/-- A RAWG attempt emits no signal (its trace is the API query and possibly
one HTTP GET). -/
theorem emitsOf_rawg_trace (r : RawgResp) :
    emitsOf (tryFetchFromRawgT r).1 = [] := by
  cases r <;> simp [tryFetchFromRawgT, tryDownloadT, emitsOf]

/-- When every failure in the download environment is a `RequestException`,
`_try_download` returns an ordinary boolean — no exception escapes it. -/
theorem tryDownload_onlyReq (u : String) (dl : DlEnv)
    (h : dlOnlyReq dl = true) : ∃ b, (tryDownloadT u dl).2 = Except.ok b := by
  obtain ⟨g, w, r⟩ := dl
  simp [dlOnlyReq, stepOkOrReq] at h
  obtain ⟨⟨hg, hw⟩, hr⟩ := h
  rcases hg with rfl | rfl <;> rcases hw with rfl | rfl <;>
    rcases hr with rfl | rfl <;>
    first
      | exact ⟨true, rfl⟩
      | exact ⟨false, rfl⟩

/-- When every failure in the RAWG interaction is a `RequestException`,
`_try_fetch_from_rawg` returns an ordinary boolean — no exception escapes. -/
theorem tryFetchFromRawg_onlyReq (r : RawgResp)
    (h : rawgOnlyReq r = true) : ∃ b, (tryFetchFromRawgT r).2 = Except.ok b := by
  cases r with
  | excDuringGet e =>
    simp [rawgOnlyReq] at h
    subst h
    exact ⟨false, rfl⟩
  | notADict => simp [rawgOnlyReq] at h
  | noResults => exact ⟨false, rfl⟩
  | firstNotDict => simp [rawgOnlyReq] at h
  | noImage => exact ⟨false, rfl⟩
  | image imgUrl dl =>
    simp [rawgOnlyReq] at h
    obtain ⟨b, hb⟩ := tryDownload_onlyReq imgUrl dl h
    refine ⟨b, ?_⟩
    simp [tryFetchFromRawgT] at hb ⊢
    rcases htd : tryDownloadT imgUrl dl with ⟨t, res⟩
    rw [htd] at hb
    simp at hb
    simp [hb, catchReq]

/-- The emissions of a one-signal trace. -/
theorem emitsOf_singleton_emit (k p : String) :
    emitsOf [Act.emit k p] = [(k, p)] := rfl

/-- A worker-spawn action contributes no emission. -/
theorem emitsOf_cons_spawnWorker (k : String) (t : List Act) :
    emitsOf (Act.spawnWorker k :: t) = emitsOf t := by
  simp [emitsOf]

/-- When every RAWG failure is a `RequestException`, the RAWG half of the
worker finishes without an escaping exception. -/
theorem workerRawgStep_no_exc (key lp apiKey : String) (rawg : RawgResp)
    (hr : rawgOnlyReq rawg = true) :
    (workerRawgStep key lp apiKey rawg).2 = none := by
  by_cases ha : apiKey = ""
  · simp [workerRawgStep, ha]
  · obtain ⟨b, hb⟩ := tryFetchFromRawg_onlyReq rawg hr
    rcases htr : tryFetchFromRawgT rawg with ⟨t, res⟩
    rw [htr] at hb
    simp at hb
    subst hb
    cases b <;> simp [workerRawgStep, ha, htr]

/-- If the RAWG half of the worker finishes without an escaping exception, it
emits exactly one signal: `(key, localPath)` or `(key, "")`. -/
theorem workerRawgStep_emits (key lp apiKey : String) (rawg : RawgResp)
    (h : (workerRawgStep key lp apiKey rawg).2 = none) :
    emitsOf (workerRawgStep key lp apiKey rawg).1 = [(key, lp)] ∨
    emitsOf (workerRawgStep key lp apiKey rawg).1 = [(key, "")] := by
  by_cases ha : apiKey = ""
  · right
    simp [workerRawgStep, ha, emitsOf_singleton_emit]
  · rcases htr : tryFetchFromRawgT rawg with ⟨t, res⟩
    have hte : emitsOf t = [] := by
      have h1 := emitsOf_rawg_trace rawg
      rw [htr] at h1
      exact h1
    cases res with
    | error e =>
      exfalso
      simp [workerRawgStep, ha, htr] at h
    | ok b =>
      cases b
      · right
        simp [workerRawgStep, ha, htr, emitsOf_append, hte, emitsOf_singleton_emit]
      · left
        simp [workerRawgStep, ha, htr, emitsOf_append, hte, emitsOf_singleton_emit]

/-- If the whole worker finishes without an escaping exception, it emits
exactly one signal carrying its key: `(key, localPath)` or `(key, "")`. -/
theorem worker_emits_exactly_once (key lp : String) (url : Option String)
    (apiKey : String) (dl : DlEnv) (rawg : RawgResp)
    (h : (worker key lp url apiKey dl rawg).2 = none) :
    emitsOf (worker key lp url apiKey dl rawg).1 = [(key, lp)] ∨
    emitsOf (worker key lp url apiKey dl rawg).1 = [(key, "")] := by
  cases url with
  | none =>
    have h' : (workerRawgStep key lp apiKey rawg).2 = none := by
      simpa [worker] using h
    simpa [worker] using workerRawgStep_emits key lp apiKey rawg h'
  | some u =>
    by_cases hu : u = ""
    · subst hu
      have h' : (workerRawgStep key lp apiKey rawg).2 = none := by
        simpa [worker] using h
      simpa [worker] using workerRawgStep_emits key lp apiKey rawg h'
    · rcases htd : tryDownloadT u dl with ⟨t, res⟩
      have hte : emitsOf t = [] := by
        have h1 := emitsOf_download_trace u dl
        rw [htd] at h1
        exact h1
      cases res with
      | error e =>
        exfalso
        simp [worker, hu, htd] at h
      | ok b =>
        cases b with
        | true =>
          left
          simp [worker, hu, htd, emitsOf_append, hte, emitsOf_singleton_emit]
        | false =>
          rcases hrw : workerRawgStep key lp apiKey rawg with ⟨t2, e2⟩
          have he2 : e2 = none := by
            have h2 := h
            simp [worker, hu, htd, hrw] at h2
            exact h2
          subst he2
          have hem := workerRawgStep_emits key lp apiKey rawg (by rw [hrw])
          rw [hrw] at hem
          simpa [worker, hu, htd, hrw, emitsOf_append, hte] using hem

/-! ## Claim C4 (confirmed) -/

/-- C4: the worker's steps run in strict order.  First conjunct: when the
direct URL download succeeds, the worker's whole trace is the one HTTP GET and
the success emission — the metadata API is never queried, whatever the API key
or the API environment.  Second conjunct: when the URL is absent (falsy) and
the API key is empty, the trace is only the empty-path failure emission — no
API call, no download.  Third conjunct: when the URL download fails (returns
`False`) and the API key is empty, the trace is the failed GET followed by the
empty-path failure emission — again no API call. -/
theorem worker_strict_order :
    (∀ (key lp u apiKey : String) (dl : DlEnv) (rawg : RawgResp),
      u ≠ "" → (tryDownloadT u dl).2 = Except.ok true →
      worker key lp (some u) apiKey dl rawg =
        ([Act.httpGet u, Act.emit key lp], none) ∧
      queriesApi (worker key lp (some u) apiKey dl rawg).1 = false)
    ∧ (∀ (key lp : String) (url : Option String) (dl : DlEnv)
        (rawg : RawgResp),
      pyTruthy url = false →
      worker key lp url "" dl rawg = ([Act.emit key ""], none) ∧
      queriesApi (worker key lp url "" dl rawg).1 = false)
    ∧ (∀ (key lp u : String) (dl : DlEnv) (rawg : RawgResp),
      u ≠ "" → (tryDownloadT u dl).2 = Except.ok false →
      worker key lp (some u) "" dl rawg =
        ([Act.httpGet u, Act.emit key ""], none) ∧
      queriesApi (worker key lp (some u) "" dl rawg).1 = false) := by
  refine ⟨?_, ?_, ?_⟩
  · intro key lp u apiKey dl rawg hu h2
    have hb : catchReq (tryDownloadBody dl) = Except.ok true := by
      simpa [tryDownloadT] using h2
    constructor <;> simp [worker, tryDownloadT, hu, hb, queriesApi]
  · intro key lp url dl rawg h
    cases url with
    | none => constructor <;> simp [worker, workerRawgStep, queriesApi]
    | some u =>
      have hu : u = "" := by simpa [pyTruthy] using h
      subst hu
      constructor <;> simp [worker, workerRawgStep, queriesApi]
  · intro key lp u dl rawg hu h2
    have hb : catchReq (tryDownloadBody dl) = Except.ok false := by
      simpa [tryDownloadT] using h2
    constructor <;>
      simp [worker, tryDownloadT, hu, hb, workerRawgStep, queriesApi]

/-- C4 witness: the three orderings at concrete inputs — a successful direct
download never reaches the API even with a key configured and an API image
available; a missing URL with an empty key fails straight away; a failing
download with an empty key fails without an API call. -/
theorem worker_strict_order_witness :
    (worker "k" "covers/k.png" (some "http://x") "sekret" ⟨none, none, none⟩
        (RawgResp.image "http://img" ⟨none, none, none⟩) =
      ([Act.httpGet "http://x", Act.emit "k" "covers/k.png"], none) ∧
      queriesApi (worker "k" "covers/k.png" (some "http://x") "sekret"
        ⟨none, none, none⟩
        (RawgResp.image "http://img" ⟨none, none, none⟩)).1 = false) ∧
    (worker "k" "covers/k.png" none "" ⟨none, none, none⟩ RawgResp.noResults =
      ([Act.emit "k" ""], none) ∧
      queriesApi (worker "k" "covers/k.png" none "" ⟨none, none, none⟩
        RawgResp.noResults).1 = false) ∧
    (worker "k" "covers/k.png" (some "http://x") ""
        ⟨some Exc.reqExc, none, none⟩ RawgResp.noResults =
      ([Act.httpGet "http://x", Act.emit "k" ""], none) ∧
      queriesApi (worker "k" "covers/k.png" (some "http://x") ""
        ⟨some Exc.reqExc, none, none⟩ RawgResp.noResults).1 = false) :=
  ⟨worker_strict_order.1 "k" "covers/k.png" "http://x" "sekret"
      ⟨none, none, none⟩ (RawgResp.image "http://img" ⟨none, none, none⟩)
      (by decide) rfl,
    worker_strict_order.2.1 "k" "covers/k.png" none ⟨none, none, none⟩
      RawgResp.noResults (by decide),
    worker_strict_order.2.2 "k" "covers/k.png" "http://x"
      ⟨some Exc.reqExc, none, none⟩ RawgResp.noResults (by decide) rfl⟩

/-! ## Claim C2 (corrected) -/

/-- C2, counterexample: an `OSError` raised while writing the temp file is not
caught — the `except` clause of `_try_download` handles only
`requests.exceptions.RequestException` — so it propagates out of the worker;
the fetch is not turned into an empty-path result (nothing is emitted at
all). -/
theorem worker_osError_escapes_counterexample :
    worker "k" "covers/k.png" (some "http://x") ""
        ⟨none, some Exc.osErr, none⟩ RawgResp.noResults =
      ([Act.httpGet "http://x"], some Exc.osErr) ∧
    emitsOf (worker "k" "covers/k.png" (some "http://x") ""
        ⟨none, some Exc.osErr, none⟩ RawgResp.noResults).1 = [] := by
  decide

/-- C2, amended: exceptions of the `requests` family (network errors, non-2xx
statuses via `raise_for_status`, malformed JSON) raised at any step are caught
inside the worker and treated as ordinary failure of that step, and then no
exception propagates out of the worker; but OS-level file errors during the
temp-file write or atomic rename, and attribute errors from an
unexpectedly-shaped API response, are not caught and propagate out of the
worker thread. -/
theorem worker_catches_request_exceptions (key lp : String)
    (url : Option String) (apiKey : String) (dl : DlEnv) (rawg : RawgResp)
    (hdl : dlOnlyReq dl = true) (hr : rawgOnlyReq rawg = true) :
    (worker key lp url apiKey dl rawg).2 = none := by
  cases url with
  | none => simpa [worker] using workerRawgStep_no_exc key lp apiKey rawg hr
  | some u =>
    by_cases hu : u = ""
    · subst hu
      simpa [worker] using workerRawgStep_no_exc key lp apiKey rawg hr
    · obtain ⟨b, hb⟩ := tryDownload_onlyReq u dl hdl
      rcases htd : tryDownloadT u dl with ⟨t, res⟩
      rw [htd] at hb
      simp at hb
      subst hb
      cases b with
      | true => simp [worker, hu, htd]
      | false =>
        rcases hrw : workerRawgStep key lp apiKey rawg with ⟨t2, e2⟩
        have he2 : e2 = none := by
          have h1 := workerRawgStep_no_exc key lp apiKey rawg hr
          rw [hrw] at h1
          exact h1
        subst he2
        simp [worker, hu, htd, hrw]

/-- C2 witness: with a failing network GET and a failing API query (both
request-level), the worker still terminates normally. -/
theorem worker_catches_request_exceptions_witness :
    (worker "k" "covers/k.png" (some "http://x") "sekret"
      ⟨some Exc.reqExc, none, none⟩
      (RawgResp.excDuringGet Exc.reqExc)).2 = none :=
  worker_catches_request_exceptions "k" "covers/k.png" (some "http://x")
    "sekret" ⟨some Exc.reqExc, none, none⟩ (RawgResp.excDuringGet Exc.reqExc)
    (by decide) (by decide)

/-! ## Claim C1 (corrected) -/

/-- C1, counterexample: a request whose worker runs can be silently dropped —
with an `OSError` during the temp-file write, the worker dies to the uncaught
exception and emits no `image_ready` at all for the accepted request. -/
theorem fetchRun_dropped_request_counterexample :
    (fetchRun "covers" "k" (fun _ => false) (some "http://x") ""
        ⟨none, some Exc.osErr, none⟩ RawgResp.noResults).2 = some Exc.osErr ∧
    emitsOf (fetchRun "covers" "k" (fun _ => false) (some "http://x") ""
        ⟨none, some Exc.osErr, none⟩ RawgResp.noResults).1 = [] := by
  decide

/-- C1, amended: for every accepted fetch request whose worker (if one runs)
terminates without an uncaught exception — in particular whenever all failures
are request-level network errors — exactly one `image_ready` event is
delivered carrying that key, with the cache path on success or the empty
string on failure; but a worker killed by an uncaught exception (e.g. an
`OSError` while writing the temp file) delivers nothing, silently dropping the
request. -/
theorem fetchRun_delivers_exactly_once (coversDir key : String)
    (pe : String → Bool) (url : Option String) (apiKey : String)
    (dl : DlEnv) (rawg : RawgResp)
    (h : (fetchRun coversDir key pe url apiKey dl rawg).2 = none) :
    emitsOf (fetchRun coversDir key pe url apiKey dl rawg).1 =
      [(key, localPathFor coversDir key)] ∨
    emitsOf (fetchRun coversDir key pe url apiKey dl rawg).1 = [(key, "")] := by
  by_cases hc : pe (localPathFor coversDir key) = true
  · left
    simp [fetchRun, hc, emitsOf_singleton_emit]
  · have hcf : pe (localPathFor coversDir key) = false := by
      cases hpe : pe (localPathFor coversDir key) with
      | true => exact absurd hpe hc
      | false => rfl
    rcases hw : worker key (localPathFor coversDir key) url apiKey dl rawg
      with ⟨t, e⟩
    have he : e = none := by
      have h2 := h
      simp [fetchRun, hcf, hw] at h2
      exact h2
    subst he
    have hem := worker_emits_exactly_once key (localPathFor coversDir key)
      url apiKey dl rawg (by rw [hw])
    rw [hw] at hem
    simpa [fetchRun, hcf, hw, emitsOf_cons_spawnWorker] using hem

/-- C1 witness: an uncached request with a clean direct download delivers
exactly one `image_ready` for its key. -/
theorem fetchRun_delivers_exactly_once_witness :
    emitsOf (fetchRun "covers" "k" (fun _ => false) (some "http://x") ""
        ⟨none, none, none⟩ RawgResp.noResults).1 =
      [("k", localPathFor "covers" "k")] ∨
    emitsOf (fetchRun "covers" "k" (fun _ => false) (some "http://x") ""
        ⟨none, none, none⟩ RawgResp.noResults).1 = [("k", "")] :=
  fetchRun_delivers_exactly_once "covers" "k" (fun _ => false)
    (some "http://x") "" ⟨none, none, none⟩ RawgResp.noResults (by decide)

end GameEmulator
